import Mathlib

/-!
A shallow embedding of the 3D structure viewer (src/src/App.js and the
unnamed source file src/unnamed/part_000) and proofs about it.

Spreadsheet data, scene composition and bounds are rational-valued and
computable; the cylinder geometry (three.js Vector3 / Quaternion math,
which the repository calls) is embedded over the reals further below.
JS numbers are idealised as exact rationals / reals; the one place where
the floating-point world leaks into control flow, the Number.EPSILON
guard inside Quaternion.setFromUnitVectors, is kept as the exact constant
2 ^ (-52).
-/

namespace StructureViewer

/-! ## Processed data model (App.js, handleFileUpload output) -/

/-- A 3D position with rational coordinates (a JS [x, y, z] array). -/
structure Vec3Q where
  x : ℚ
  y : ℚ
  z : ℚ
deriving DecidableEq

/-- A processed node row: { Node: node.Node?.toString(), X, Y, Z } with the
coordinates already numeric.  The Node field is an Option because the JS
optional chaining leaves undefined when the cell is missing. -/
structure PNode where
  Node : Option String
  X : ℚ
  Y : ℚ
  Z : ℚ
deriving DecidableEq

/-- A processed member row: { StartNode, EndNode } as optional strings. -/
structure PMember where
  StartNode : Option String
  EndNode : Option String
deriving DecidableEq

/-- nodes.find(n => n.Node === id): the first node whose Node field is
strictly equal to the identifier.  JS === on two possibly-undefined
strings is equality of the Option values. -/
def findNode (nodes : List PNode) (id : Option String) : Option PNode :=
  nodes.find? (fun n => n.Node == id)

/-- The body of the cylinders map in App.js (lines 112-130): resolve both
endpoints, and produce the start/end coordinate pair handed to the
Cylinder component; null when either node is missing.
parseFloat on the already-numeric processed coordinates is the identity. -/
def resolveMember (nodes : List PNode) (member : PMember) : Option (Vec3Q × Vec3Q) :=
  match findNode nodes member.StartNode, findNode nodes member.EndNode with
  | some startNode, some endNode =>
      some (⟨startNode.X, startNode.Y, startNode.Z⟩, ⟨endNode.X, endNode.Y, endNode.Z⟩)
  | _, _ => none

/-- App.js cylinders (lines 106-132): the early return [] when either list
is empty, then members.map(...).filter(Boolean). -/
def cylindersApp (members : List PMember) (nodes : List PNode) :
    List (Vec3Q × Vec3Q) :=
  if members = [] ∨ nodes = [] then []
  else (members.map (resolveMember nodes)).reduceOption

/-! ## Marker cubes (App.js, lines 66-103) -/

/-- The fixed member indices the cubes memo walks. -/
def specialMembers : List ℕ := [0, 11, 4]

/-- Insertion into the Set of JSON-stringified positions: JSON.stringify of
a numeric triple is injective, so membership is value equality, and a JS
Set keeps first-insertion order. -/
def insertPos (acc : List Vec3Q) (p : Vec3Q) : List Vec3Q :=
  if p ∈ acc then acc else acc ++ [p]

/-- Adding one resolved endpoint position (no node found adds nothing). -/
def addNodePos (acc : List Vec3Q) (n : Option PNode) : List Vec3Q :=
  match n with
  | some node => insertPos acc ⟨node.X, node.Y, node.Z⟩
  | none => acc

/-- One iteration of the specialMembers.forEach of the cubes memo: an
index inside the member list adds the start and then the end node
position, an out-of-range index (members[i] undefined) adds nothing. -/
def cubeStep (members : List PMember) (nodes : List PNode)
    (acc : List Vec3Q) (memberIndex : ℕ) : List Vec3Q :=
  match members[memberIndex]? with
  | some member =>
      addNodePos (addNodePos acc (findNode nodes member.StartNode))
        (findNode nodes member.EndNode)
  | none => acc

/-- App.js cubes (lines 66-103): walk the fixed indices of specialMembers
over the member list, collecting deduplicated endpoint positions. -/
def cubesApp (members : List PMember) (nodes : List PNode) : List Vec3Q :=
  if members = [] ∨ nodes = [] then []
  else specialMembers.foldl (cubeStep members nodes) []

/-- Claim-side: first-occurrence deduplication of a list of positions. -/
def dedupFirst (l : List Vec3Q) : List Vec3Q :=
  l.foldl insertPos []

/-- Claim-side: the start- and end-node positions a single member
contributes, in order, keeping only resolved references. -/
def memberEndpointPositions (nodes : List PNode) (member : PMember) : List Vec3Q :=
  ((findNode nodes member.StartNode).map (fun n => (⟨n.X, n.Y, n.Z⟩ : Vec3Q))).toList ++
    ((findNode nodes member.EndNode).map (fun n => (⟨n.X, n.Y, n.Z⟩ : Vec3Q))).toList

/-- Claim-side restatement of the cube positions: the members at list
indices 0, 11, 4 (those that exist), their endpoint positions
concatenated, deduplicated keeping first occurrences. -/
def cubePositionsSpec (members : List PMember) (nodes : List PNode) : List Vec3Q :=
  dedupFirst ((specialMembers.filterMap (fun i => members[i]?)).flatMap
    (memberEndpointPositions nodes))

/-! ## Scene bounds (App.js, lines 135-168) -/

/-- One running min/max accumulator cell.  `none` models the Infinity /
-Infinity seed: Math.min(Infinity, x) = x and Math.max(-Infinity, x) = x,
so the first node replaces the seed and after that ordinary min/max run. -/
def optFold (g : ℚ → ℚ → ℚ) (a : Option ℚ) (x : ℚ) : ℚ :=
  match a with
  | none => x
  | some m => g m x

/-- Math.min against a possibly-still-infinite accumulator. -/
def omin (a : Option ℚ) (x : ℚ) : ℚ := optFold min a x

/-- Math.max against a possibly-still-infinite accumulator. -/
def omax (a : Option ℚ) (x : ℚ) : ℚ := optFold max a x

/-- The reduce accumulator { minX, maxX, minY, maxY, minZ, maxZ }. -/
structure BoundsAcc where
  minX : Option ℚ
  maxX : Option ℚ
  minY : Option ℚ
  maxY : Option ℚ
  minZ : Option ℚ
  maxZ : Option ℚ
deriving DecidableEq

/-- One step of the coords reduce. -/
def bstep (acc : BoundsAcc) (n : PNode) : BoundsAcc :=
  ⟨some (omin acc.minX n.X), some (omax acc.maxX n.X),
   some (omin acc.minY n.Y), some (omax acc.maxY n.Y),
   some (omin acc.minZ n.Z), some (omax acc.maxZ n.Z)⟩

/-- The result { center, size } of the sceneBounds memo. -/
structure SceneBounds where
  center : Vec3Q
  size : ℚ
deriving DecidableEq

/-- App.js sceneBounds (lines 135-168).  The empty node list short-circuits
to the fixed default, so the reduce only ever runs on a non-empty list
and every accumulator field is `some`; getD 0 merely extracts the value.
The 1.5 margin factor is the rational 3/2. -/
def sceneBounds (nodes : List PNode) : SceneBounds :=
  if nodes = [] then ⟨⟨0, 0, 0⟩, 10⟩
  else
    let coords := nodes.foldl bstep ⟨none, none, none, none, none, none⟩
    ⟨⟨(coords.minX.getD 0 + coords.maxX.getD 0) / 2,
      (coords.minY.getD 0 + coords.maxY.getD 0) / 2,
      (coords.minZ.getD 0 + coords.maxZ.getD 0) / 2⟩,
     max (max (coords.maxX.getD 0 - coords.minX.getD 0)
              (coords.maxY.getD 0 - coords.minY.getD 0))
         (coords.maxZ.getD 0 - coords.minZ.getD 0) * (3 / 2)⟩

/-- The camera position App.js derives from the bounds (lines 173-177):
center + size on every axis. -/
def cameraPosition (b : SceneBounds) : Vec3Q :=
  ⟨b.center.x + b.size, b.center.y + b.size, b.center.z + b.size⟩

/-- Claim-side: minimum of a list of rationals seeded with a first value. -/
def listMin (x : ℚ) (l : List ℚ) : ℚ := l.foldl min x

/-- Claim-side: maximum of a list of rationals seeded with a first value. -/
def listMax (x : ℚ) (l : List ℚ) : ℚ := l.foldl max x

/-! ## Endpoint counting (src/unnamed/part_000, lines 64-75)

The member rows this component consumes carry the spreadsheet column
names: the values live under the keys "Start Node" and "End Node" (this is
how the cylinders memo of the same file reads them).  The properties
member.StartNode and member.EndNode therefore do not exist, and
members["End Node"] is a property access on the members array itself:
all three are undefined in JS. -/

/-- A raw member row of part_000: the values at keys "Start Node" and
"End Node". -/
structure RawMember where
  startId : Option String
  endId : Option String
deriving DecidableEq

/-- member.StartNode: the rows have no StartNode property, so undefined. -/
def RawMember.dotStartNode (_ : RawMember) : Option String := none

/-- member.EndNode: the rows have no EndNode property, so undefined. -/
def RawMember.dotEndNode (_ : RawMember) : Option String := none

/-- members["End Node"]: string-keyed access on the members array, which
has no such property, so undefined. -/
def arrayEndNodeField (_ : List RawMember) : Option String := none

/-- A JS object key: the undefined value used as a property key is coerced
to the string "undefined". -/
def jsKey : Option String → String
  | some s => s
  | none => "undefined"

/-- Reading a string-keyed JS object, modelled as an insertion-ordered
association list. -/
def mapGet : List (String × ℕ) → String → Option ℕ
  | [], _ => none
  | (k, v) :: rest, key => if k = key then some v else mapGet rest key

/-- Assigning to a string-keyed JS object: an existing key is updated in
place, a new key is appended (JS preserves insertion order). -/
def mapSet : List (String × ℕ) → String → ℕ → List (String × ℕ)
  | [], key, v => [(key, v)]
  | (k, v0) :: rest, key, v =>
      if k = key then (k, v) :: rest else (k, v0) :: mapSet rest key v

/-- part_000 findEndpoints (lines 64-75), exactly as written:

  nodeConnections[member.StartNode] =
    (nodeConnections[member["Start Node"]] || 0) + 1;
  nodeConnections[member.EndNode] =
    (nodeConnections[members["End Node"]] || 0) + 1;

The write keys are both the undefined member.StartNode / member.EndNode,
while the first read uses the real start identifier and the second reads
the undefined members["End Node"]. -/
def findEndpoints (members : List RawMember) : List (String × ℕ) :=
  members.foldl
    (fun nodeConnections member =>
      let nodeConnections :=
        mapSet nodeConnections (jsKey member.dotStartNode)
          ((mapGet nodeConnections (jsKey member.startId)).getD 0 + 1)
      mapSet nodeConnections (jsKey member.dotEndNode)
        ((mapGet nodeConnections (jsKey (arrayEndNodeField members))).getD 0 + 1))
    []

/-- part_000 cylinders, line 109: findEndpoints[member.EndNode] === 1. -/
def isEndpointOf (counts : List (String × ℕ)) (member : RawMember) : Bool :=
  (mapGet counts (jsKey member.dotEndNode)) == some 1

/-- The total of all connection counts in the map. -/
def sumCounts (counts : List (String × ℕ)) : ℕ :=
  (counts.map (fun kv => kv.2)).sum

/-! ## Spreadsheet upload (App.js, lines 201-252) -/

/-- A spreadsheet cell as sheet_to_json delivers it: a number or a text. -/
inductive Cell where
  | num (q : ℚ)
  | str (s : String)
deriving DecidableEq

/-- The textual shape parseFloat reads: sign flag, integer digits,
fractional digits. -/
structure ParsedFloat where
  neg : Bool
  intDigits : List Char
  fracDigits : List Char
deriving DecidableEq

/-- The character-level pass of JS parseFloat: skip leading whitespace,
read an optional sign, then the longest prefix of digits and an optional
fractional digit run. -/
def splitFloat (s : String) : ParsedFloat :=
  let cs := s.toList.dropWhile (fun c => c = ' ' ∨ c = '\t' ∨ c = '\n' ∨ c = '\r')
  let signed : Bool × List Char :=
    match cs with
    | '-' :: rest => (true, rest)
    | '+' :: rest => (false, rest)
    | _ => (false, cs)
  let intDigits := signed.2.takeWhile Char.isDigit
  let afterInt := signed.2.dropWhile Char.isDigit
  let fracDigits :=
    match afterInt with
    | '.' :: rest => rest.takeWhile Char.isDigit
    | _ => []
  ⟨signed.1, intDigits, fracDigits⟩

/-- A digit run as a natural number. -/
def digitsToNat (ds : List Char) : ℕ :=
  ds.foldl (fun a c => 10 * a + (c.toNat - 48)) 0

/-- JS parseFloat on a string: NaN (modelled as none) when no digit was
read, otherwise the signed decimal value.  Exponent notation is not
modelled; no input of the claims uses it. -/
def jsParseFloat (s : String) : Option ℚ :=
  let p := splitFloat s
  if p.intDigits = [] ∧ p.fracDigits = [] then none
  else
    some ((if p.neg then -1 else 1) *
      ((digitsToNat p.intDigits : ℚ) +
        (digitsToNat p.fracDigits : ℚ) / (10 : ℚ) ^ p.fracDigits.length))

/-- parseFloat applied to a cell value: a number stays itself, a string is
parsed, the undefined value gives NaN (none). -/
def parseFloatCell : Option Cell → Option ℚ
  | none => none
  | some (Cell.num q) => some q
  | some (Cell.str s) => jsParseFloat s

/-- The `|| 0` guard: NaN collapses to 0 (a parsed 0 is already 0). -/
def orZero : Option ℚ → ℚ
  | none => 0
  | some q => q

/-- value?.toString(): the canonical string of a number, a string itself,
undefined stays undefined.  Only injectivity of the numeric rendering
matters to the claims, which the canonical form has. -/
def cellToString : Option Cell → Option String
  | none => none
  | some (Cell.num q) => some (toString q)
  | some (Cell.str s) => some s

/-- A raw row of the nodes sheet (columns Node, X, Y, Z; any may be
missing). -/
structure NodeRow where
  nodeCell : Option Cell
  xCell : Option Cell
  yCell : Option Cell
  zCell : Option Cell
deriving DecidableEq

/-- A raw row of the members sheet (columns "Start Node", "End Node"). -/
structure MemberRow where
  startCell : Option Cell
  endCell : Option Cell
deriving DecidableEq

/-- App.js processedNodes (lines 221-226). -/
def processNode (r : NodeRow) : PNode :=
  ⟨cellToString r.nodeCell,
   orZero (parseFloatCell r.xCell),
   orZero (parseFloatCell r.yCell),
   orZero (parseFloatCell r.zCell)⟩

/-- App.js processedMembers (lines 229-232). -/
def processMember (r : MemberRow) : PMember :=
  ⟨cellToString r.startCell, cellToString r.endCell⟩

/-- Claim-side value of one processed coordinate: 0 when the field is
missing or does not parse as a number, the parsed value otherwise. -/
def coordValue : Option Cell → ℚ
  | none => 0
  | some (Cell.num q) => q
  | some (Cell.str s) => (jsParseFloat s).getD 0

/-- A decoded workbook: the sheets the handler reads, first
(SheetNames[0], members) and second (SheetNames[1], nodes).  `none`
models a missing sheet (fewer than two sheets in the upload). -/
structure Workbook where
  memberSheet : Option (List MemberRow)
  nodeSheet : Option (List NodeRow)

/-- XLSX.utils.sheet_to_json: a missing sheet yields the empty row list
(the library returns [] for a null sheet), a present sheet its rows. -/
def sheetToJson (sheet : Option (List α)) : List α :=
  sheet.getD []

/-- The three state fields of the App component. -/
structure AppState where
  members : List PMember
  nodes : List PNode
  error : Option String
deriving DecidableEq

/-- The reader onload handler (App.js lines 205-249) as a state
transition.  The argument is the outcome of XLSX.read: an exception
message when the file is unreadable, otherwise the workbook.  Both the
catch branch and the empty-sheet throw clear members and nodes and set
the error; success replaces everything and clears the error.  The
previous state is never consulted. -/
def handleFileLoad (readResult : Except String Workbook) (_prev : AppState) :
    AppState :=
  match readResult with
  | Except.error msg => ⟨[], [], some ("Error processing file: " ++ msg)⟩
  | Except.ok workbook =>
      let membersData := sheetToJson workbook.memberSheet
      let nodesData := sheetToJson workbook.nodeSheet
      if membersData = [] ∨ nodesData = [] then
        ⟨[], [], some "Error processing file: Invalid data in Excel file"⟩
      else
        ⟨membersData.map processMember, nodesData.map processNode, none⟩

/-- Claim-side failure condition of an upload: unreadable file, a missing
sheet (fewer than two sheets), or an empty sheet. -/
def uploadFails (readResult : Except String Workbook) : Prop :=
  match readResult with
  | Except.error _ => True
  | Except.ok workbook =>
      workbook.memberSheet = none ∨ workbook.nodeSheet = none ∨
        sheetToJson workbook.memberSheet = [] ∨ sheetToJson workbook.nodeSheet = []

/-! ## Concrete inputs used by the theorems below -/

/-- A chain of three nodes "1" - "2" - "3" joined by two members, as raw
part_000 rows. -/
def c3members : List RawMember := [⟨some "1", some "2"⟩, ⟨some "2", some "3"⟩]

/-- A chain of three nodes "10" - "20" - "30" joined by two members. -/
def c4members : List RawMember := [⟨some "10", some "20"⟩, ⟨some "20", some "30"⟩]

/-- Two members forming a chain over nodes "1", "2", "3". -/
def c10members : List PMember := [⟨some "1", some "2"⟩, ⟨some "2", some "3"⟩]

/-- Three nodes on the x axis; node "3" touches exactly one member of
c10members. -/
def c10nodes : List PNode :=
  [⟨some "1", 0, 0, 0⟩, ⟨some "2", 1, 0, 0⟩, ⟨some "3", 2, 0, 0⟩]

/-! ## Cylinder geometry (App.js lines 20-59 and part_000 lines 22-60)

The Cylinder component runs three.js vector and quaternion math on the
two endpoint positions.  JS numbers are modelled as reals; the library
functions the component calls (Vector3.sub, length, normalize,
Quaternion.setFromUnitVectors, Quaternion.normalize and the quaternion
application used by the renderer) are translated below from their three.js
sources.  Number.EPSILON is the exact constant 2 ^ (-52). -/

/-- A real 3-vector (three.js Vector3). -/
structure Vec3 where
  x : ℝ
  y : ℝ
  z : ℝ

/-- A quaternion (three.js Quaternion, stored x, y, z, w). -/
structure Quat where
  x : ℝ
  y : ℝ
  z : ℝ
  w : ℝ

/-- Componentwise sum. -/
def vadd (a b : Vec3) : Vec3 := ⟨a.x + b.x, a.y + b.y, a.z + b.z⟩

/-- Componentwise difference (endVec.clone().sub(startVec)). -/
def vsub (a b : Vec3) : Vec3 := ⟨a.x - b.x, a.y - b.y, a.z - b.z⟩

/-- multiplyScalar. -/
def vscale (k : ℝ) (v : Vec3) : Vec3 := ⟨k * v.x, k * v.y, k * v.z⟩

/-- Vector3.dot. -/
def dot3 (a b : Vec3) : ℝ := a.x * b.x + a.y * b.y + a.z * b.z

/-- Vector3.cross (used only on the claim side, to state parallelism). -/
def cross3 (a b : Vec3) : Vec3 :=
  ⟨a.y * b.z - a.z * b.y, a.z * b.x - a.x * b.z, a.x * b.y - a.y * b.x⟩

/-- Vector3.length: the square root of the dot square. -/
noncomputable def vlength (v : Vec3) : ℝ := Real.sqrt (dot3 v v)

/-- Vector3.normalize: divideScalar(length() || 1), so the zero vector is
divided by 1 and stays zero. -/
noncomputable def vnormalize (v : Vec3) : Vec3 :=
  vscale (1 / (if vlength v = 0 then 1 else vlength v)) v

/-- Quaternion.length. -/
noncomputable def qlength (q : Quat) : ℝ :=
  Real.sqrt (q.x * q.x + q.y * q.y + q.z * q.z + q.w * q.w)

/-- Quaternion.normalize: the zero quaternion becomes the identity,
otherwise every component is scaled by the inverse length. -/
noncomputable def qnormalize (q : Quat) : Quat :=
  if qlength q = 0 then ⟨0, 0, 0, 1⟩
  else ⟨q.x * (1 / qlength q), q.y * (1 / qlength q),
        q.z * (1 / qlength q), q.w * (1 / qlength q)⟩

/-- Number.EPSILON. -/
noncomputable def jsEpsilon : ℝ := 1 / 2 ^ 52

/-- Quaternion.setFromUnitVectors (three.js source): the shortest-arc
rotation between two unit vectors, with an epsilon guard that falls back
to a fixed perpendicular axis when the vectors are (nearly) opposite. -/
noncomputable def setFromUnitVectors (vFrom vTo : Vec3) : Quat :=
  let r := dot3 vFrom vTo + 1
  if r < jsEpsilon then
    qnormalize
      (if |vFrom.x| > |vFrom.z| then ⟨-vFrom.y, vFrom.x, 0, 0⟩
       else ⟨0, -vFrom.z, vFrom.y, 0⟩)
  else
    qnormalize
      ⟨vFrom.y * vTo.z - vFrom.z * vTo.y,
       vFrom.z * vTo.x - vFrom.x * vTo.z,
       vFrom.x * vTo.y - vFrom.y * vTo.x, r⟩

/-- Vector3.applyQuaternion (three.js source), assuming a unit
quaternion: v + 2 w (q x v) + 2 q x (q x v) written out componentwise. -/
def applyQuaternion (v : Vec3) (q : Quat) : Vec3 :=
  let tx := 2 * (q.y * v.z - q.z * v.y)
  let ty := 2 * (q.z * v.x - q.x * v.z)
  let tz := 2 * (q.x * v.y - q.y * v.x)
  ⟨v.x + q.w * tx + q.y * tz - q.z * ty,
   v.y + q.w * ty + q.z * tx - q.x * tz,
   v.z + q.w * tz + q.x * ty - q.y * tx⟩

/-- The canonical up axis of the cylinder primitive. -/
def up3 : Vec3 := ⟨0, 1, 0⟩

/-- What the Cylinder useMemo returns: center position, orientation
quaternion, length. -/
structure CylMesh where
  position : Vec3
  rotation : Quat
  length : ℝ

/-- The Cylinder useMemo body (App.js lines 21-47): direction and length
from the endpoints, midpoint center, and the rotation carrying the up
axis onto the normalized direction.  The length < 0.1 test only logs a
console warning; it changes nothing in the returned value. -/
noncomputable def cylinderMesh (a b : Vec3) : CylMesh :=
  let direction := vsub b a
  ⟨vscale (1 / 2) (vadd a b),
   setFromUnitVectors up3 (vnormalize direction),
   vlength direction⟩

/-- Claim-side Euclidean distance between two points. -/
noncomputable def dist3 (a b : Vec3) : ℝ :=
  Real.sqrt ((a.x - b.x) ^ 2 + (a.y - b.y) ^ 2 + (a.z - b.z) ^ 2)

/-- Claim-side midpoint of two points. -/
noncomputable def midpoint3 (a b : Vec3) : Vec3 :=
  ⟨(a.x + b.x) / 2, (a.y + b.y) / 2, (a.z + b.z) / 2⟩

/-- Claim-side parallelism: the cross product vanishes. -/
def parallel3 (u v : Vec3) : Prop := cross3 u v = ⟨0, 0, 0⟩

/-- The near-antiparallel direction of the counterexample: a rational unit
multiple whose normalized form has y within Number.EPSILON of -1 without
being exactly (0, -1, 0). -/
noncomputable def cexB : Vec3 := ⟨1 / 2 ^ 26, 1 / 2 ^ 54 - 1, 0⟩

/-! ## Helper lemmas for the geometry proofs -/

/-- Two vectors with equal components are equal. -/
theorem vec3_ext {a b : Vec3} (hx : a.x = b.x) (hy : a.y = b.y) (hz : a.z = b.z) :
    a = b := by
  cases a; cases b; simp_all



theorem qnormalize_eval (q : Quat) (L : ℝ) (hL : 0 < L)
    (h : q.x * q.x + q.y * q.y + q.z * q.z + q.w * q.w = L ^ 2) :
    qnormalize q = ⟨q.x * (1 / L), q.y * (1 / L), q.z * (1 / L), q.w * (1 / L)⟩ := by
  have hq : qlength q = L := by
    rw [qlength, h, Real.sqrt_sq hL.le]
  rw [qnormalize, hq, if_neg (ne_of_gt hL)]

theorem apply_setFrom_up (v : Vec3) (hv : dot3 v v = 1)
    (hr : jsEpsilon ≤ dot3 up3 v + 1) :
    applyQuaternion up3 (setFromUnitVectors up3 v) = v := by
  obtain ⟨vx, vy, vz⟩ := v
  have hv2 : vx * vx + vy * vy + vz * vz = 1 := by simpa [dot3] using hv
  have hry : jsEpsilon ≤ vy + 1 := by simpa [dot3, up3] using hr
  have heps : (0 : ℝ) < jsEpsilon := by norm_num [jsEpsilon]
  have hrpos : (0 : ℝ) < vy + 1 := lt_of_lt_of_le heps hry
  have hq : setFromUnitVectors up3 ⟨vx, vy, vz⟩ =
      qnormalize ⟨vz, 0, -vx, vy + 1⟩ := by
    rw [setFromUnitVectors]
    rw [if_neg (by simp only [dot3, up3]; push_neg; norm_num; linarith)]
    simp [dot3, up3]
  have hLpos : 0 < Real.sqrt (2 * (vy + 1)) := Real.sqrt_pos.mpr (by linarith)
  have hsq : Real.sqrt (2 * (vy + 1)) ^ 2 = 2 * (vy + 1) :=
    Real.sq_sqrt (by linarith)
  have hu : (1 / Real.sqrt (2 * (vy + 1))) ^ 2 * (2 * (vy + 1)) = 1 := by
    rw [div_pow, one_pow, hsq]
    field_simp
  have hqn : qnormalize ⟨vz, 0, -vx, vy + 1⟩ =
      ⟨vz * (1 / Real.sqrt (2 * (vy + 1))), 0 * (1 / Real.sqrt (2 * (vy + 1))),
       -vx * (1 / Real.sqrt (2 * (vy + 1))), (vy + 1) * (1 / Real.sqrt (2 * (vy + 1)))⟩ :=
    qnormalize_eval _ _ hLpos (by rw [hsq]; simp only []; linear_combination hv2)
  rw [hq, hqn]
  refine vec3_ext ?_ ?_ ?_ <;> simp only [applyQuaternion, up3]
  · linear_combination vx * hu
  · linear_combination (vy - 1) * hu +
      (-(2 * (1 / Real.sqrt (2 * (vy + 1))) ^ 2)) * hv2
  · linear_combination vz * hu



theorem apply_setFrom_up_anti (v : Vec3) (hv : dot3 v v = 1)
    (hx : v.x = 0) (hz : v.z = 0)
    (hr : dot3 up3 v + 1 < jsEpsilon) :
    applyQuaternion up3 (setFromUnitVectors up3 v) = v := by
  obtain ⟨vx, vy, vz⟩ := v
  simp only at hx hz
  subst hx hz
  have hvy : vy = -1 := by
    have h1 : vy * vy = 1 := by
      have := hv
      simp only [dot3] at this
      linarith [this]
    rcases mul_self_eq_one_iff.mp h1 with h | h
    · exfalso
      rw [h] at hr
      simp only [dot3, up3] at hr
      norm_num [jsEpsilon] at hr
    · exact h
  subst hvy
  have hq : setFromUnitVectors up3 ⟨0, -1, 0⟩ = qnormalize ⟨0, -up3.z, up3.y, 0⟩ := by
    rw [setFromUnitVectors]
    rw [if_pos (by simpa [dot3, up3] using hr)]
    rw [if_neg (by simp [up3])]
  rw [hq, qnormalize_eval ⟨0, -up3.z, up3.y, 0⟩ 1 one_pos (by norm_num [up3])]
  refine vec3_ext ?_ ?_ ?_ <;> norm_num [applyQuaternion, up3]

theorem dot3_pos_of_ne (d : Vec3) (hd : d ≠ ⟨0, 0, 0⟩) : 0 < dot3 d d := by
  obtain ⟨dx, dy, dz⟩ := d
  have h : dx ≠ 0 ∨ dy ≠ 0 ∨ dz ≠ 0 := by
    by_contra h
    push_neg at h
    exact hd (vec3_ext h.1 h.2.1 h.2.2)
  show 0 < dx * dx + dy * dy + dz * dz
  rcases h with h | h | h
  · nlinarith [mul_self_nonneg dy, mul_self_nonneg dz, mul_self_pos.mpr h]
  · nlinarith [mul_self_nonneg dx, mul_self_nonneg dz, mul_self_pos.mpr h]
  · nlinarith [mul_self_nonneg dx, mul_self_nonneg dy, mul_self_pos.mpr h]

theorem vlength_pos (d : Vec3) (hd : d ≠ ⟨0, 0, 0⟩) : 0 < vlength d :=
  Real.sqrt_pos.mpr (dot3_pos_of_ne d hd)

theorem vnormalize_of_ne (d : Vec3) (hd : d ≠ ⟨0, 0, 0⟩) :
    vnormalize d = vscale (1 / vlength d) d := by
  rw [vnormalize, if_neg (ne_of_gt (vlength_pos d hd))]

theorem vnormalize_unit (d : Vec3) (hd : d ≠ ⟨0, 0, 0⟩) :
    dot3 (vnormalize d) (vnormalize d) = 1 := by
  rw [vnormalize_of_ne d hd]
  have hdd := dot3_pos_of_ne d hd
  have hl2 : vlength d ^ 2 = dot3 d d := Real.sq_sqrt hdd.le
  have hlne : vlength d ≠ 0 := ne_of_gt (vlength_pos d hd)
  obtain ⟨dx, dy, dz⟩ := d
  simp only [vscale, dot3] at *
  field_simp
  linear_combination -hl2

theorem parallel3_scale (k : ℝ) (d : Vec3) : parallel3 (vscale k d) d := by
  unfold parallel3
  refine vec3_ext ?_ ?_ ?_ <;> simp [cross3, vscale] <;> ring

/-- Claim C1 (amended): for every pair a different from b, the cylinder
transform returns length equal to the Euclidean distance and center equal
to the midpoint — unconditionally; and whenever the normalized direction
is not strictly inside the Number.EPSILON guard band around the direction
opposite to up (first disjunct), or the direction has no x and z
component (which covers the exactly-opposite case), the returned
orientation carries the up axis exactly onto the normalized direction,
hence onto a vector parallel to b - a.  Inside the guard band with a
nonzero x or z component the code returns the fixed 180-degree rotation
about z instead, which is the counterexample to the unamended claim. -/
theorem geometry_transform_correct (a b : Vec3) (hab : a ≠ b) :
    (cylinderMesh a b).length = dist3 a b ∧
    (cylinderMesh a b).position = midpoint3 a b ∧
    ((jsEpsilon ≤ dot3 up3 (vnormalize (vsub b a)) + 1 ∨
        ((vsub b a).x = 0 ∧ (vsub b a).z = 0)) →
      applyQuaternion up3 (cylinderMesh a b).rotation = vnormalize (vsub b a) ∧
      parallel3 (applyQuaternion up3 (cylinderMesh a b).rotation) (vsub b a)) := by
  have hd : vsub b a ≠ ⟨0, 0, 0⟩ := by
    intro h
    apply hab
    have hx := congrArg Vec3.x h
    have hy := congrArg Vec3.y h
    have hz := congrArg Vec3.z h
    simp only [vsub] at hx hy hz
    exact vec3_ext (by linarith) (by linarith) (by linarith)
  have hunit := vnormalize_unit _ hd
  have hrotm : (cylinderMesh a b).rotation =
      setFromUnitVectors up3 (vnormalize (vsub b a)) := rfl
  refine ⟨?_, ?_, ?_⟩
  · show vlength (vsub b a) = dist3 a b
    rw [vlength, dist3]
    congr 1
    simp only [dot3, vsub]
    ring
  · show vscale (1 / 2) (vadd a b) = midpoint3 a b
    refine vec3_ext ?_ ?_ ?_ <;> simp [vscale, vadd, midpoint3] <;> ring
  · intro hbr
    have hrot : applyQuaternion up3 (setFromUnitVectors up3 (vnormalize (vsub b a))) =
        vnormalize (vsub b a) := by
      rcases hbr with hbr | hxz
      · exact apply_setFrom_up _ hunit hbr
      · rcases lt_or_le (dot3 up3 (vnormalize (vsub b a)) + 1) jsEpsilon with hlt | hge
        · have hnx : (vnormalize (vsub b a)).x = 0 := by
            rw [vnormalize_of_ne _ hd]
            simp [vscale, hxz.1]
          have hnz : (vnormalize (vsub b a)).z = 0 := by
            rw [vnormalize_of_ne _ hd]
            simp [vscale, hxz.2]
          exact apply_setFrom_up_anti _ hunit hnx hnz hlt
        · exact apply_setFrom_up _ hunit hge
    constructor
    · rw [hrotm]
      exact hrot
    · rw [hrotm, hrot, vnormalize_of_ne _ hd]
      exact parallel3_scale _ _



theorem quat_ext {p q : Quat} (hx : p.x = q.x) (hy : p.y = q.y)
    (hz : p.z = q.z) (hw : p.w = q.w) : p = q := by
  cases p; cases q; simp_all

theorem cylmesh_ext {p q : CylMesh} (h1 : p.position = q.position)
    (h2 : p.rotation = q.rotation) (h3 : p.length = q.length) : p = q := by
  cases p; cases q; simp_all

theorem setFromUnitVectors_up_main (vTo : Vec3)
    (h : ¬ (dot3 up3 vTo + 1 < jsEpsilon)) :
    setFromUnitVectors up3 vTo =
      qnormalize ⟨vTo.z, 0, -vTo.x, dot3 up3 vTo + 1⟩ := by
  rw [setFromUnitVectors, if_neg h]
  congr 1
  refine quat_ext ?_ ?_ ?_ ?_ <;> simp [up3]

theorem cylinderMesh_self (p : Vec3) :
    cylinderMesh p p = ⟨p, ⟨0, 0, 0, 1⟩, 0⟩ := by
  have hzero : vsub p p = ⟨0, 0, 0⟩ := by
    refine vec3_ext ?_ ?_ ?_ <;> simp [vsub]
  have hdot : dot3 (⟨0, 0, 0⟩ : Vec3) ⟨0, 0, 0⟩ = 0 := by norm_num [dot3]
  have hlen : vlength (⟨0, 0, 0⟩ : Vec3) = 0 := by
    rw [vlength, hdot, Real.sqrt_zero]
  have hnorm : vnormalize (⟨0, 0, 0⟩ : Vec3) = ⟨0, 0, 0⟩ := by
    rw [vnormalize, if_pos hlen]
    refine vec3_ext ?_ ?_ ?_ <;> norm_num [vscale]
  have hcond : ¬ (dot3 up3 (⟨0, 0, 0⟩ : Vec3) + 1 < jsEpsilon) := by
    norm_num [dot3, up3, jsEpsilon]
  refine cylmesh_ext ?_ ?_ ?_
  · show vscale (1 / 2) (vadd p p) = p
    refine vec3_ext ?_ ?_ ?_ <;> simp [vscale, vadd] <;> ring
  · show setFromUnitVectors up3 (vnormalize (vsub p p)) = ⟨0, 0, 0, 1⟩
    rw [hzero, hnorm, setFromUnitVectors_up_main _ hcond,
      qnormalize_eval _ 1 one_pos (by norm_num [dot3, up3])]
    refine quat_ext ?_ ?_ ?_ ?_ <;> norm_num [dot3, up3]
  · show vlength (vsub p p) = 0
    rw [hzero, hlen]



/-- Claim C1 witness: the amended theorem applied at the concrete pair
(0,0,0), (0,5,0) of the spec, together with the direct evaluation of the
transform there: length 5, center (0, 5/2, 0), identity orientation. -/
theorem geometry_transform_correct_witness :
    ((⟨0, 0, 0⟩ : Vec3) ≠ ⟨0, 5, 0⟩)
    ∧ (jsEpsilon ≤ dot3 up3 (vnormalize (vsub ⟨0, 5, 0⟩ ⟨0, 0, 0⟩)) + 1 ∨
        ((vsub (⟨0, 5, 0⟩ : Vec3) ⟨0, 0, 0⟩).x = 0 ∧
          (vsub (⟨0, 5, 0⟩ : Vec3) ⟨0, 0, 0⟩).z = 0))
    ∧ (cylinderMesh ⟨0, 0, 0⟩ ⟨0, 5, 0⟩).length = dist3 ⟨0, 0, 0⟩ ⟨0, 5, 0⟩
    ∧ parallel3 (applyQuaternion up3 (cylinderMesh ⟨0, 0, 0⟩ ⟨0, 5, 0⟩).rotation)
        (vsub ⟨0, 5, 0⟩ ⟨0, 0, 0⟩)
    ∧ cylinderMesh ⟨0, 0, 0⟩ ⟨0, 5, 0⟩ = ⟨⟨0, 5 / 2, 0⟩, ⟨0, 0, 0, 1⟩, 5⟩ := by
  have hne : (⟨0, 0, 0⟩ : Vec3) ≠ ⟨0, 5, 0⟩ := by
    intro h
    have := congrArg Vec3.y h
    norm_num at this
  have hxz : (vsub (⟨0, 5, 0⟩ : Vec3) ⟨0, 0, 0⟩).x = 0 ∧
      (vsub (⟨0, 5, 0⟩ : Vec3) ⟨0, 0, 0⟩).z = 0 := by
    constructor <;> norm_num [vsub]
  obtain ⟨h1, h2, h34⟩ := geometry_transform_correct ⟨0, 0, 0⟩ ⟨0, 5, 0⟩ hne
  obtain ⟨h3, h4⟩ := h34 (Or.inr hxz)
  have hdsub : vsub (⟨0, 5, 0⟩ : Vec3) ⟨0, 0, 0⟩ = ⟨0, 5, 0⟩ := by
    refine vec3_ext ?_ ?_ ?_ <;> norm_num [vsub]
  have hd5 : dot3 (⟨0, 5, 0⟩ : Vec3) ⟨0, 5, 0⟩ = 5 ^ 2 := by norm_num [dot3]
  have hlen : vlength (⟨0, 5, 0⟩ : Vec3) = 5 := by
    rw [vlength, hd5, Real.sqrt_sq (by norm_num)]
  have hne5 : (⟨0, 5, 0⟩ : Vec3) ≠ ⟨0, 0, 0⟩ := by
    intro h
    have := congrArg Vec3.y h
    norm_num at this
  have hnorm : vnormalize (⟨0, 5, 0⟩ : Vec3) = ⟨0, 1, 0⟩ := by
    rw [vnormalize_of_ne _ hne5, hlen]
    refine vec3_ext ?_ ?_ ?_ <;> norm_num [vscale]
  have hcond : ¬ (dot3 up3 (⟨0, 1, 0⟩ : Vec3) + 1 < jsEpsilon) := by
    norm_num [dot3, up3, jsEpsilon]
  have hsfu : setFromUnitVectors up3 ⟨0, 1, 0⟩ = ⟨0, 0, 0, 1⟩ := by
    rw [setFromUnitVectors_up_main _ hcond,
      qnormalize_eval _ 2 (by norm_num) (by norm_num [dot3, up3])]
    refine quat_ext ?_ ?_ ?_ ?_ <;> norm_num [dot3, up3]
  refine ⟨hne, Or.inr hxz, h1, h4, ?_⟩
  refine cylmesh_ext ?_ ?_ ?_
  · show vscale (1 / 2) (vadd ⟨0, 0, 0⟩ ⟨0, 5, 0⟩) = ⟨0, 5 / 2, 0⟩
    refine vec3_ext ?_ ?_ ?_ <;> norm_num [vscale, vadd]
  · show setFromUnitVectors up3 (vnormalize (vsub ⟨0, 5, 0⟩ ⟨0, 0, 0⟩)) = ⟨0, 0, 0, 1⟩
    rw [hdsub, hnorm, hsfu]
  · show vlength (vsub ⟨0, 5, 0⟩ ⟨0, 0, 0⟩) = 5
    rw [hdsub, hlen]




/-- Claim C1 counterexample: at a = (0,0,0), b = (2^-26, 2^-54 - 1, 0) the
two points differ, yet the orientation the transform returns maps the up
axis to (0,-1,0), which is not parallel to b - a: the normalized
direction has dot with up within Number.EPSILON of -1, so the
setFromUnitVectors fallback branch fires and returns the fixed
180-degree rotation about z. -/
theorem geometry_transform_parallel_cex :
    ((⟨0, 0, 0⟩ : Vec3) ≠ cexB)
    ∧ ¬ parallel3 (applyQuaternion up3 (cylinderMesh ⟨0, 0, 0⟩ cexB).rotation)
        (vsub cexB ⟨0, 0, 0⟩) := by
  have hdsub : vsub cexB ⟨0, 0, 0⟩ = cexB := by
    refine vec3_ext ?_ ?_ ?_ <;> norm_num [vsub, cexB]
  have hdot : dot3 cexB cexB = (1 + 1 / 2 ^ 54) ^ 2 := by
    norm_num [dot3, cexB]
  have hlen : vlength cexB = 1 + 1 / 2 ^ 54 := by
    rw [vlength, hdot, Real.sqrt_sq (by positivity)]
  have hne0 : cexB ≠ ⟨0, 0, 0⟩ := by
    intro h
    have := congrArg Vec3.x h
    norm_num [cexB] at this
  have hnorm : vnormalize cexB = vscale (1 / (1 + 1 / 2 ^ 54)) cexB := by
    rw [vnormalize_of_ne _ hne0, hlen]
  have hcond : dot3 up3 (vnormalize cexB) + 1 < jsEpsilon := by
    rw [hnorm]
    simp only [dot3, up3, vscale, cexB]
    rw [jsEpsilon]
    norm_num
  have hsfu : setFromUnitVectors up3 (vnormalize cexB) = ⟨0, 0, 1, 0⟩ := by
    rw [setFromUnitVectors, if_pos hcond, if_neg (by norm_num [up3])]
    rw [qnormalize_eval _ 1 one_pos (by norm_num [up3])]
    refine quat_ext ?_ ?_ ?_ ?_ <;> norm_num [up3]
  have happly : applyQuaternion up3 ⟨0, 0, 1, 0⟩ = ⟨0, -1, 0⟩ := by
    refine vec3_ext ?_ ?_ ?_ <;> norm_num [applyQuaternion, up3]
  refine ⟨?_, ?_⟩
  · intro h
    have := congrArg Vec3.x h
    norm_num [cexB] at this
  · rw [show (cylinderMesh ⟨0, 0, 0⟩ cexB).rotation =
        setFromUnitVectors up3 (vnormalize (vsub cexB ⟨0, 0, 0⟩)) from rfl]
    rw [hdsub, hsfu, happly]
    intro hpar
    have hz := congrArg Vec3.z hpar
    simp only [cross3, cexB] at hz
    norm_num at hz



/-- Claim C2 (amended): on coincident endpoints the transform returns
length 0, center at the point, and the identity orientation — a fully
defined value; the only degeneracy flag is the console warning, whose
condition length < 0.1 indeed holds; and the member is not skipped: in a
scene with a degenerate and a regular member, both appear in the
rendered cylinder list and the regular one is unaffected. -/
theorem degenerate_member_warn_and_render :
    (∀ p : Vec3, cylinderMesh p p = ⟨p, ⟨0, 0, 0, 1⟩, 0⟩)
    ∧ (∀ p : Vec3, (cylinderMesh p p).length < 1 / 10)
    ∧ cylindersApp [⟨some "1", some "1"⟩, ⟨some "1", some "2"⟩]
        [⟨some "1", 0, 0, 0⟩, ⟨some "2", 3, 4, 0⟩] =
      [(⟨0, 0, 0⟩, ⟨0, 0, 0⟩), (⟨0, 0, 0⟩, ⟨3, 4, 0⟩)] := by
  refine ⟨cylinderMesh_self, ?_, by decide⟩
  intro p
  rw [cylinderMesh_self p]
  norm_num

/-- Claim C2 counterexample: a one-member scene whose member has
coincident endpoints still renders that member (the cylinder list is not
empty, so it was not skipped), and the transform silently returns length
0 with the identity orientation rather than flagging the result. -/
theorem degenerate_member_not_skipped_cex :
    cylindersApp [⟨some "1", some "1"⟩] [⟨some "1", 0, 0, 0⟩] =
      [(⟨0, 0, 0⟩, ⟨0, 0, 0⟩)]
    ∧ cylinderMesh ⟨0, 0, 0⟩ ⟨0, 0, 0⟩ = ⟨⟨0, 0, 0⟩, ⟨0, 0, 0, 1⟩, 0⟩ := by
  exact ⟨by decide, cylinderMesh_self ⟨0, 0, 0⟩⟩

/-! ## Claims C3 and C4: the endpoint classifier -/

/-- Claim C3 (code bug shown on the code as written): on the simple chain
1-2-3 the connection-count map holds the single key "undefined" with
value 2; no chain node receives any count at all, in particular not
count 1 at the two ends, and no member is classified as an endpoint. -/
theorem endpoint_classifier_chain_bug :
    findEndpoints c3members = [("undefined", 2)]
    ∧ (["1", "2", "3"].all fun k => mapGet (findEndpoints c3members) k == none) = true
    ∧ (c3members.all fun m => !(isEndpointOf (findEndpoints c3members) m)) = true := by
  decide

/-- Claim C4 (code bug shown on the code as written): with two members the
sum of all connection counts is 2, not 2 x 2 = 4; each member overwrites
the same "undefined" entry instead of incrementing two per-node
counters. -/
theorem connection_count_sum_bug :
    sumCounts (findEndpoints c4members) = 2
    ∧ c4members.length = 2
    ∧ sumCounts (findEndpoints c4members) ≠ 2 * c4members.length := by
  decide

/-! ## Claims C5 and C6: scene bounds -/

/-- The coords reduce, once every accumulator field is a value, computes
the running minima and maxima axis by axis. -/
theorem boundsFold_some (rest : List PNode) :
    ∀ mnX mxX mnY mxY mnZ mxZ : ℚ,
      rest.foldl bstep ⟨some mnX, some mxX, some mnY, some mxY, some mnZ, some mxZ⟩ =
        ⟨some (rest.foldl (fun a n => min a n.X) mnX),
         some (rest.foldl (fun a n => max a n.X) mxX),
         some (rest.foldl (fun a n => min a n.Y) mnY),
         some (rest.foldl (fun a n => max a n.Y) mxY),
         some (rest.foldl (fun a n => min a n.Z) mnZ),
         some (rest.foldl (fun a n => max a n.Z) mxZ)⟩ := by
  induction rest with
  | nil => intro mnX mxX mnY mxY mnZ mxZ; rfl
  | cons r rest ih =>
      intro mnX mxX mnY mxY mnZ mxZ
      simp only [List.foldl_cons]
      exact ih _ _ _ _ _ _

/-- Claim C5: on every non-empty node list the bounds are the per-axis
midpoint of the coordinate minima and maxima, with size the largest
per-axis extent scaled by 3/2; and the concrete three-node example
yields center (5, 5, 0) and size 15. -/
theorem scene_bounds_nonempty_formula :
    (∀ (n : PNode) (rest : List PNode),
      sceneBounds (n :: rest) =
        ⟨⟨(listMin n.X (rest.map PNode.X) + listMax n.X (rest.map PNode.X)) / 2,
          (listMin n.Y (rest.map PNode.Y) + listMax n.Y (rest.map PNode.Y)) / 2,
          (listMin n.Z (rest.map PNode.Z) + listMax n.Z (rest.map PNode.Z)) / 2⟩,
         max (max (listMax n.X (rest.map PNode.X) - listMin n.X (rest.map PNode.X))
                  (listMax n.Y (rest.map PNode.Y) - listMin n.Y (rest.map PNode.Y)))
             (listMax n.Z (rest.map PNode.Z) - listMin n.Z (rest.map PNode.Z)) * (3 / 2)⟩)
    ∧ sceneBounds [⟨some "1", 0, 0, 0⟩, ⟨some "2", 10, 0, 0⟩, ⟨some "3", 0, 10, 0⟩] =
        ⟨⟨5, 5, 0⟩, 15⟩ := by
  refine ⟨?_, by norm_num [sceneBounds, bstep, omin, omax, optFold, min_def, max_def]; decide⟩
  · intro n rest
    have hne : (n :: rest) ≠ ([] : List PNode) := by simp
    simp only [sceneBounds, if_neg hne, List.foldl_cons]
    rw [show bstep ⟨none, none, none, none, none, none⟩ n =
          ⟨some n.X, some n.X, some n.Y, some n.Y, some n.Z, some n.Z⟩ from rfl]
    rw [boundsFold_some rest n.X n.X n.Y n.Y n.Z n.Z]
    simp [listMin, listMax, List.foldl_map]

/-- Claim C6: the empty node list yields the fixed default bounds, and the
camera position derived from them is the finite point (10, 10, 10). -/
theorem scene_bounds_empty_default :
    sceneBounds [] = ⟨⟨0, 0, 0⟩, 10⟩
    ∧ cameraPosition (sceneBounds []) = ⟨10, 10, 10⟩ := by
  norm_num [sceneBounds, cameraPosition]

/-! ## Claim C7: unresolved member references -/

/-- The empty-list guard of the cylinders memo never changes the value:
the memo is the filterMap of member resolution. -/
theorem cylindersApp_eq (members : List PMember) (nodes : List PNode) :
    cylindersApp members nodes = members.filterMap (resolveMember nodes) := by
  have hnil : ∀ ms : List PMember, ms.filterMap (resolveMember ([] : List PNode)) = [] := by
    intro ms
    induction ms with
    | nil => rfl
    | cons a t ih => rw [List.filterMap_cons_none rfl, ih]
  rw [cylindersApp]
  by_cases hm : members = []
  · subst hm; simp
  · by_cases hn : nodes = []
    · subst hn
      rw [if_pos (Or.inr rfl), hnil]
    · rw [if_neg (by simp [hm, hn])]
      simp [List.reduceOption, List.filterMap_map, Function.comp]

/-- Claim C7: a member whose start or end reference resolves to no node
contributes nothing to the cylinder list, and the members before and
after it are processed exactly as they would be without it. -/
theorem unresolved_member_dropped (ms₁ ms₂ : List PMember) (nodes : List PNode)
    (m : PMember)
    (h : findNode nodes m.StartNode = none ∨ findNode nodes m.EndNode = none) :
    cylindersApp (ms₁ ++ m :: ms₂) nodes =
      cylindersApp ms₁ nodes ++ cylindersApp ms₂ nodes := by
  have hm : resolveMember nodes m = none := by
    rcases h with h | h
    · cases hx : findNode nodes m.EndNode <;> simp [resolveMember, h, hx]
    · cases hx : findNode nodes m.StartNode <;> simp [resolveMember, h, hx]
  simp [cylindersApp_eq, List.filterMap_append, List.filterMap_cons_none hm]

/-- Claim C7 witness: in a two-member scene whose second member references
the nonexistent node "99", that member is dropped and the first still
renders. -/
theorem unresolved_member_dropped_witness :
    (findNode [⟨some "1", 0, 0, 0⟩, ⟨some "2", 0, 5, 0⟩] (some "99") = none
      ∨ findNode [⟨some "1", 0, 0, 0⟩, ⟨some "2", 0, 5, 0⟩] (some "99") = none)
    ∧ cylindersApp ([⟨some "1", some "2"⟩] ++ ⟨some "1", some "99"⟩ :: [])
        [⟨some "1", 0, 0, 0⟩, ⟨some "2", 0, 5, 0⟩] =
      cylindersApp [⟨some "1", some "2"⟩] [⟨some "1", 0, 0, 0⟩, ⟨some "2", 0, 5, 0⟩] ++
        cylindersApp [] [⟨some "1", 0, 0, 0⟩, ⟨some "2", 0, 5, 0⟩] := by
  refine ⟨Or.inl (by decide), ?_⟩
  exact unresolved_member_dropped [⟨some "1", some "2"⟩] [] _ ⟨some "1", some "99"⟩
    (Or.inr (by decide))

/-! ## Claim C8: upload lifecycle -/

/-- Claim C8: the handler ignores the previous state entirely (wholesale
replacement); every failing upload (unreadable file, missing sheet,
empty sheet) clears members and nodes and sets an error; every
successful upload clears the error and installs the processed data.
The two closed conjuncts show one failing and one succeeding input. -/
theorem upload_failure_clears_state :
    (∀ (r : Except String Workbook) (p q : AppState),
        handleFileLoad r p = handleFileLoad r q)
    ∧ (∀ (r : Except String Workbook) (p : AppState), uploadFails r →
        (handleFileLoad r p).members = [] ∧ (handleFileLoad r p).nodes = [] ∧
          (handleFileLoad r p).error.isSome = true)
    ∧ (∀ (w : Workbook) (p : AppState), ¬ uploadFails (Except.ok w) →
        (handleFileLoad (Except.ok w) p).error = none ∧
        (handleFileLoad (Except.ok w) p).members =
          (sheetToJson w.memberSheet).map processMember ∧
        (handleFileLoad (Except.ok w) p).nodes =
          (sheetToJson w.nodeSheet).map processNode)
    ∧ uploadFails (Except.error "corrupt")
    ∧ ¬ uploadFails (Except.ok ⟨some [⟨some (Cell.str "1"), some (Cell.str "2")⟩],
        some [⟨some (Cell.str "1"), some (Cell.num 0), some (Cell.num 0), some (Cell.num 0)⟩]⟩) := by
  refine ⟨fun r p q => rfl, ?_, ?_, trivial, ?_⟩
  · intro r p hf
    cases r with
    | error msg => simp [handleFileLoad]
    | ok w =>
        simp only [uploadFails] at hf
        have hcond : sheetToJson w.memberSheet = [] ∨ sheetToJson w.nodeSheet = [] := by
          rcases hf with h | h | h | h
          · exact Or.inl (by simp [sheetToJson, h])
          · exact Or.inr (by simp [sheetToJson, h])
          · exact Or.inl h
          · exact Or.inr h
        simp only [handleFileLoad]
        rw [if_pos hcond]
        simp
  · intro w p hnf
    simp only [uploadFails] at hnf
    push_neg at hnf
    obtain ⟨-, -, h3, h4⟩ := hnf
    simp only [handleFileLoad]
    rw [if_neg (by simp [h3, h4])]
    exact ⟨rfl, rfl, rfl⟩
  · intro hf
    simp only [uploadFails, sheetToJson] at hf
    rcases hf with h | h | h | h <;> simp_all

/-! ## Claim C9: coordinate parsing defaults -/

/-- Claim C9: every processed coordinate equals the claim-side value:
missing or unparseable fields become 0 and numeric fields (numbers or
numeric text) their parsed value.  The closed conjuncts evaluate the
parser on a non-numeric and on a textual numeric field. -/
theorem node_coordinate_defaults :
    (∀ r : NodeRow,
      (processNode r).X = coordValue r.xCell ∧
      (processNode r).Y = coordValue r.yCell ∧
      (processNode r).Z = coordValue r.zCell)
    ∧ coordValue none = 0
    ∧ (∀ s, jsParseFloat s = none → coordValue (some (Cell.str s)) = 0)
    ∧ (∀ q, coordValue (some (Cell.num q)) = q)
    ∧ (∀ s q, jsParseFloat s = some q → coordValue (some (Cell.str s)) = q)
    ∧ jsParseFloat "abc" = none
    ∧ jsParseFloat "2.5" = some (5 / 2) := by
  have h25 : jsParseFloat "2.5" = some (5 / 2) := by
    have hsplit : splitFloat "2.5" = ⟨false, ['2'], ['5']⟩ := by decide
    have h2 : digitsToNat ['2'] = 2 := by decide
    have h5 : digitsToNat ['5'] = 5 := by decide
    rw [jsParseFloat, hsplit]
    norm_num [h2, h5]
  have key : ∀ c : Option Cell, orZero (parseFloatCell c) = coordValue c := by
    intro c
    match c with
    | none => rfl
    | some (Cell.num q) => rfl
    | some (Cell.str s) =>
        simp only [parseFloatCell, coordValue]
        cases h : jsParseFloat s <;> simp [h, orZero]
  refine ⟨fun r => ⟨key _, key _, key _⟩, rfl, ?_, fun q => rfl, ?_, by decide, h25⟩
  · intro s h; simp [coordValue, h]
  · intro s q h; simp [coordValue, h]

/-! ## Claim C10: marker cube placement -/

/-- Two consecutive endpoint insertions are the insert-fold of the list of
positions the member contributes. -/
theorem addNodePos_pair (acc : List Vec3Q) (a b : Option PNode) :
    addNodePos (addNodePos acc a) b =
      ((a.map fun n => (⟨n.X, n.Y, n.Z⟩ : Vec3Q)).toList ++
        (b.map fun n => (⟨n.X, n.Y, n.Z⟩ : Vec3Q)).toList).foldl insertPos acc := by
  cases a <;> cases b <;> simp [addNodePos]

/-- The cubes fold over member indices is the insert-fold over all
positions contributed by the members those indices select. -/
theorem cubes_fold_eq (ms : List PMember) (ns : List PNode) (idxs : List ℕ) :
    ∀ acc : List Vec3Q,
      idxs.foldl (cubeStep ms ns) acc
      = ((idxs.filterMap (fun i => ms[i]?)).flatMap
          (memberEndpointPositions ns)).foldl insertPos acc := by
  induction idxs with
  | nil => intro acc; rfl
  | cons i idxs ih =>
      intro acc
      simp only [List.foldl_cons]
      cases hi : ms[i]? with
      | none =>
          rw [List.filterMap_cons_none hi]
          rw [show cubeStep ms ns acc i = acc by simp [cubeStep, hi]]
          exact ih acc
      | some m =>
          rw [List.filterMap_cons_some hi]
          rw [show cubeStep ms ns acc i =
                addNodePos (addNodePos acc (findNode ns m.StartNode))
                  (findNode ns m.EndNode) by simp [cubeStep, hi]]
          simp only [List.flatMap_cons, List.foldl_append]
          rw [addNodePos_pair]
          exact ih _

/-- Claim C10: the cube positions are exactly the deduplicated endpoint
positions of the members at indices 0, 11 and 4 of the member list; on
the concrete chain scene only the first member contributes, and the
position of node "3" (the node with exactly one connection) receives no
cube. -/
theorem marker_cubes_fixed_indices :
    (∀ (members : List PMember) (nodes : List PNode),
        cubesApp members nodes = cubePositionsSpec members nodes)
    ∧ cubesApp c10members c10nodes = [⟨0, 0, 0⟩, ⟨1, 0, 0⟩]
    ∧ (⟨2, 0, 0⟩ : Vec3Q) ∉ cubesApp c10members c10nodes := by
  refine ⟨?_, by decide, by decide⟩
  intro ms ns
  rw [cubesApp, cubePositionsSpec, dedupFirst]
  by_cases hm : ms = []
  · subst hm
    rw [if_pos (Or.inl rfl)]
    rfl
  · by_cases hn : ns = []
    · subst hn
      rw [if_pos (Or.inr rfl)]
      have hmep : ∀ L : List PMember, L.flatMap (memberEndpointPositions []) = [] := by
        intro L
        induction L with
        | nil => rfl
        | cons a L ih => simp [memberEndpointPositions, findNode, ih]
      rw [hmep]
      rfl
    · rw [if_neg (by simp [hm, hn])]
      exact cubes_fold_eq ms ns specialMembers []

end StructureViewer
